import Mathlib

/-!
# Verification of the SimpleBIM update backend (`app/routers/updates.py`)

A shallow embedding of the update-check router: version parsing and
comparison, the `/updates/check` decision engine, the version registry
query for the latest active release, and the `/updates/statistics`
aggregator.  Python strings are Lean `String`s (operated on through
their character lists so that everything kernel-evaluates); Python `int`
values are Lean `Int`; database rows are Lean structures; the registry
table and the append-only statistics table are Lean lists.  Timestamps
(`datetime` values) are modelled as `Nat` instants ordered
chronologically, with `isoformat` abstracted to the instant itself (it
is injective on datetimes).  A fallible endpoint returns
`Except HTTPError`; the statistics rows appended by a call are returned
alongside the response.
-/

namespace Updates

/-- A parsed 4-component semantic version, the Python tuple
`(w, x, y, z)` produced by `parse_version`.  Components are `Int`
because Python `int()` accepts signed numerals. -/
structure V4 where
  w : Int
  x : Int
  y : Int
  z : Int
deriving DecidableEq, Repr

/-- Python `str.strip()` with no argument on a character list: remove
leading and trailing whitespace. -/
def pyStrip (cs : List Char) : List Char :=
  ((cs.dropWhile Char.isWhitespace).reverse.dropWhile Char.isWhitespace).reverse

/-- Python `str.split` on the separator `'.'`, over a character list:
the runs between the separators, kept even when empty
(`"".split` on `'.'` gives `[""]`; `"1..2"` gives `["1", "", "2"]`). -/
def splitDot : List Char → List (List Char)
  | [] => [[]]
  | c :: cs =>
      if c = '.' then [] :: splitDot cs
      else
        match splitDot cs with
        | [] => [[c]]
        | p :: ps => (c :: p) :: ps

/-- Models Python `int` applied to a decimal string: surrounding
whitespace is allowed, then an optional single `+`/`-` sign, then a
nonempty run of ASCII digits.  Returns `none` where Python raises
`ValueError`.  (Numeric underscores and non-ASCII digits, which CPython
also accepts, are not modelled; no version string in play uses them.) -/
def pyInt (s : List Char) : Option Int :=
  let t := pyStrip s
  let (sign, digits) :=
    match t with
    | '-' :: rest => ((-1 : Int), rest)
    | '+' :: rest => ((1 : Int), rest)
    | _ => ((1 : Int), t)
  if digits ≠ [] ∧ digits.all Char.isDigit then
    some (sign * (digits.foldl (fun n c => 10 * n + (c.toNat - Char.toNat '0')) 0 : Nat))
  else
    none

/-- The tail of `parse_version` applied to the component list produced
by splitting on `'.'`: pad with `'0'` while fewer than 4 parts, truncate
to the first 4, and convert each with `int`. -/
def parseParts (parts : List (List Char)) : Option V4 :=
  let parts := parts ++ List.replicate (4 - parts.length) ['0']
  match parts.take 4 with
  | [a, b, c, d] => do
      let w ← pyInt a
      let x ← pyInt b
      let y ← pyInt c
      let z ← pyInt d
      pure ⟨w, x, y, z⟩
  | _ => none

/-- The helper `parse_version` (lines 73–78): strip whitespace, strip
the leading `v`/`V` marker (Python `lstrip` removes every leading
occurrence), split on `'.'`, pad with `'0'` to 4 parts, truncate to 4,
`int` each part.  `none` models the `ValueError` CPython raises on a
non-numeric component. -/
def parse_version (version_str : String) : Option V4 :=
  parseParts (splitDot ((pyStrip version_str.data).dropWhile fun c => c == 'v' || c == 'V'))

/-- Python tuple comparison `a < b` on 4-tuples: lexicographic,
most-significant component first. -/
def vlt (a b : V4) : Bool :=
  decide (a.w < b.w) ||
    (decide (a.w = b.w) && (decide (a.x < b.x) ||
      (decide (a.x = b.x) && (decide (a.y < b.y) ||
        (decide (a.y = b.y) && decide (a.z < b.z))))))

/-- Python tuple comparison `a > b`, i.e. `b < a` for this total
order. -/
def vgt (a b : V4) : Bool :=
  vlt b a

/-- The ordering of the specification, stated independently of the
code: standard strict lexicographic order on the quadruple,
most-significant component first. -/
def LexLt (a b : V4) : Prop :=
  a.w < b.w ∨ (a.w = b.w ∧ (a.x < b.x ∨ (a.x = b.x ∧
    (a.y < b.y ∨ (a.y = b.y ∧ a.z < b.z)))))

/-- A row of the `update_versions` table (the `UpdateVersion` model):
one published release record. -/
structure Release where
  version : String
  release_date : Nat
  release_notes : Option String
  download_url : String
  file_size : Int
  checksum_sha256 : String
  update_type : String
  force_update : Bool
  min_required_version : String
  is_active : Bool
deriving DecidableEq, Repr

/-- A row of the `update_statistics` table (the `UpdateStatistic`
model): one append-only usage event. -/
structure UpdateStatistic where
  machine_hash : String
  current_version : Option String
  target_version : Option String
  revit_version : Option String
  os_version : Option String
  action : String
  status : String
  error_message : Option String
deriving DecidableEq, Repr

/-- The body of `UpdateCheckRequest`. -/
structure UpdateCheckRequest where
  product : String
  currentVersion : String
  revitVersion : String
  machineHash : String
  os : String
deriving DecidableEq, Repr

/-- The body of `UpdateCheckResponse`.  `releaseDate` holds the `Nat`
instant standing for the ISO-8601 string the endpoint renders with
`isoformat`. -/
structure UpdateCheckResponse where
  updateAvailable : Bool
  latestVersion : String
  minimumRequiredVersion : String
  releaseDate : Nat
  releaseNotes : String
  downloadUrl : String
  fileSize : Int
  checksumSHA256 : String
  updateType : String
  forceUpdate : Bool
  notificationMessage : String
deriving DecidableEq, Repr

/-- A raised `HTTPException`. -/
structure HTTPError where
  status_code : Int
  detail : String
deriving DecidableEq, Repr

instance {ε α : Type} [DecidableEq ε] [DecidableEq α] : DecidableEq (Except ε α) :=
  fun a b =>
    match a, b with
    | .ok x, .ok y =>
        if h : x = y then .isTrue (by rw [h]) else .isFalse (by simp [h])
    | .error x, .error y =>
        if h : x = y then .isTrue (by rw [h]) else .isFalse (by simp [h])
    | .ok _, .error _ => .isFalse (by simp)
    | .error _, .ok _ => .isFalse (by simp)

/-- Scan for the row the descending sort by `release_date` puts first:
keep the current best unless a strictly later row appears (a stable
descending sort leaves the first-encountered row of a tied timestamp in
front). -/
def pickLatest (best : Release) : List Release → Release
  | [] => best
  | r :: rest =>
      pickLatest (if best.release_date < r.release_date then r else best) rest

/-- The registry query of lines 88–90: filter `is_active`, order by
`release_date` descending, take the first row. -/
def getLatestActive (db : List Release) : Option Release :=
  match db.filter (fun r => r.is_active) with
  | [] => none
  | r :: rest => some (pickLatest r rest)

/-- Notification text for a forced update
(`⚠️ CẬP NHẬT BẮT BUỘC - Phiên bản của bạn đã quá cũ`). -/
def forceMsg : String := "⚠️ CẬP NHẬT BẮT BUỘC - Phiên bản của bạn đã quá cũ"

/-- Notification text when a newer version is available
(`🎉 Phiên bản mới có sẵn! Cập nhật để có trải nghiệm tốt nhất`). -/
def newVersionMsg : String := "🎉 Phiên bản mới có sẵn! Cập nhật để có trải nghiệm tốt nhất"

/-- Notification text when the client is up to date
(`✅ Bạn đang sử dụng phiên bản mới nhất`). -/
def upToDateMsg : String := "✅ Bạn đang sử dụng phiên bản mới nhất"

/-- Release-notes and notification text of the no-release response
(`Chưa có bản phát hành nào`, "no release published yet"). -/
def noReleaseMsg : String := "Chưa có bản phát hành nào"

/-- The body of `check_for_updates` after a latest active release was
found (lines 107–154): parse and compare versions, pick the effective
update type and notification, build the one `action="check"` statistics
row, and assemble the response.  A `ValueError` escaping `parse_version`
is caught by the blanket `except Exception` of the handler and re-raised
as `HTTPException` with `status_code=500`, whose detail interpolates the
exception text (abstracted here to a fixed message). -/
def decideWithLatest (latest : Release) (request : UpdateCheckRequest) :
    Except HTTPError (UpdateCheckResponse × List UpdateStatistic) :=
  match parse_version request.currentVersion with
  | none => .error ⟨500, "Update check failed: invalid literal for int with base 10"⟩
  | some current_version =>
    match parse_version latest.version with
    | none => .error ⟨500, "Update check failed: invalid literal for int with base 10"⟩
    | some latest_version =>
      match parse_version latest.min_required_version with
      | none => .error ⟨500, "Update check failed: invalid literal for int with base 10"⟩
      | some min_required =>
        let update_available := vgt latest_version current_version
        let force_update := vlt current_version min_required
        let update_type := if force_update then "mandatory" else latest.update_type
        let notification_msg :=
          if force_update then forceMsg
          else if update_available then newVersionMsg
          else upToDateMsg
        let stat : UpdateStatistic :=
          { machine_hash := request.machineHash
            current_version := some request.currentVersion
            target_version := if update_available then some latest.version else none
            revit_version := some request.revitVersion
            os_version := some request.os
            action := "check"
            status := "success"
            error_message := none }
        .ok
          ({ updateAvailable := update_available
             latestVersion := latest.version
             minimumRequiredVersion := latest.min_required_version
             releaseDate := latest.release_date
             releaseNotes := latest.release_notes.getD ""
             downloadUrl := latest.download_url
             fileSize := latest.file_size
             checksumSHA256 := latest.checksum_sha256
             updateType := update_type
             forceUpdate := force_update
             notificationMessage := notification_msg },
           [stat])

/-- Endpoint `POST /updates/check` (`check_for_updates`).  `db` is the
registry table, `now` the instant `datetime.utcnow()` returns during the
call.  The returned list holds the statistics rows the call appends. -/
def check_for_updates (db : List Release) (request : UpdateCheckRequest) (now : Nat) :
    Except HTTPError (UpdateCheckResponse × List UpdateStatistic) :=
  match getLatestActive db with
  | none =>
      .ok
        ({ updateAvailable := false
           latestVersion := request.currentVersion
           minimumRequiredVersion := request.currentVersion
           releaseDate := now
           releaseNotes := noReleaseMsg
           downloadUrl := ""
           fileSize := 0
           checksumSHA256 := ""
           updateType := "optional"
           forceUpdate := false
           notificationMessage := noReleaseMsg },
         [])
  | some latest => decideWithLatest latest request

/-- Round-half-to-even to an integer, the tie-breaking rule of the
Python built-in `round`. -/
def roundHalfEven (q : ℚ) : Int :=
  let f := ⌊q⌋
  let r := q - f
  if r < 1 / 2 then f
  else if 1 / 2 < r then f + 1
  else if f % 2 = 0 then f else f + 1

/-- Python `round(q, 2)`: round to 2 decimal places, ties to even.
Arithmetic is modelled exactly over `ℚ` (the source computes in IEEE
doubles; the quantities here are exact at these magnitudes). -/
def round2 (q : ℚ) : ℚ :=
  (roundHalfEven (q * 100) : ℚ) / 100

/-- The payload of `GET /updates/statistics`. -/
structure StatisticsSummary where
  total_checks : Nat
  total_downloads : Nat
  total_installs : Nat
  success_installs : Nat
  success_rate : ℚ
  version_distribution : String → Nat

/-- Endpoint `GET /updates/statistics` (`get_update_statistics`) over
the statistics table `log`.  The version-distribution `dict` is modelled
extensionally as its count map. -/
def get_update_statistics (log : List UpdateStatistic) : StatisticsSummary :=
  let total_checks := (log.filter fun s => s.action == "check").length
  let total_downloads := (log.filter fun s => s.action == "download").length
  let total_installs := (log.filter fun s => s.action == "install").length
  let success_installs :=
    (log.filter fun s => s.action == "install" && s.status == "success").length
  let success_rate : ℚ :=
    if 0 < total_installs then
      round2 (100 * (success_installs : ℚ) / (total_installs : ℚ))
    else 0
  { total_checks := total_checks
    total_downloads := total_downloads
    total_installs := total_installs
    success_installs := success_installs
    success_rate := success_rate
    version_distribution := fun v =>
      (log.filter fun s => s.action == "check" && s.current_version == some v).length }

/-- Two releases equal in every stored field except possibly
`force_update`. -/
def sameExceptForce (r₁ r₂ : Release) : Prop :=
  r₁.version = r₂.version ∧ r₁.release_date = r₂.release_date ∧
  r₁.release_notes = r₂.release_notes ∧ r₁.download_url = r₂.download_url ∧
  r₁.file_size = r₂.file_size ∧ r₁.checksum_sha256 = r₂.checksum_sha256 ∧
  r₁.update_type = r₂.update_type ∧
  r₁.min_required_version = r₂.min_required_version ∧
  r₁.is_active = r₂.is_active

/-! ## Concrete fixtures (spec §8 scenarios) -/

/-- Scenario B release: version `2.0.0.0`, `min_required_version`
`1.0.0.0`, stored type `optional`. -/
def relB : Release :=
  { version := "2.0.0.0"
    release_date := 100
    release_notes := some "notes"
    download_url := "https://example.com/simplebim-2.0.0.0.zip"
    file_size := 5
    checksum_sha256 := "cafe"
    update_type := "optional"
    force_update := false
    min_required_version := "1.0.0.0"
    is_active := true }

/-- Scenario B request: client current version `1.5.0.0`. -/
def reqB : UpdateCheckRequest :=
  { product := "SimpleBIM"
    currentVersion := "1.5.0.0"
    revitVersion := "2024"
    machineHash := "mh"
    os := "win" }

/-- The response `check_for_updates [relB] reqB 0` produces. -/
def respB : UpdateCheckResponse :=
  { updateAvailable := true
    latestVersion := "2.0.0.0"
    minimumRequiredVersion := "1.0.0.0"
    releaseDate := 100
    releaseNotes := "notes"
    downloadUrl := "https://example.com/simplebim-2.0.0.0.zip"
    fileSize := 5
    checksumSHA256 := "cafe"
    updateType := "optional"
    forceUpdate := false
    notificationMessage := newVersionMsg }

/-- The statistics row `check_for_updates [relB] reqB 0` appends. -/
def statB : UpdateStatistic :=
  { machine_hash := "mh"
    current_version := some "1.5.0.0"
    target_version := some "2.0.0.0"
    revit_version := some "2024"
    os_version := some "win"
    action := "check"
    status := "success"
    error_message := none }

/-- An older active release carrying a semantically higher version than
`relB`. -/
def relOld : Release :=
  { version := "9.0.0.0"
    release_date := 50
    release_notes := none
    download_url := "https://example.com/simplebim-9.0.0.0.zip"
    file_size := 9
    checksum_sha256 := "beef"
    update_type := "optional"
    force_update := false
    min_required_version := "1.0.0.0"
    is_active := true }

/-- A request whose reported current version has a non-numeric
component. -/
def reqBad : UpdateCheckRequest :=
  { product := "SimpleBIM"
    currentVersion := "abc"
    revitVersion := "2024"
    machineHash := "mh"
    os := "win" }

/-- A failed install event. -/
def evInstallFailed : UpdateStatistic :=
  { machine_hash := "m"
    current_version := none
    target_version := some "2.0.0.0"
    revit_version := none
    os_version := none
    action := "install"
    status := "failed"
    error_message := some "disk full" }

/-- A successful install event. -/
def evInstallOk : UpdateStatistic :=
  { machine_hash := "m"
    current_version := none
    target_version := some "2.0.0.0"
    revit_version := none
    os_version := none
    action := "install"
    status := "success"
    error_message := none }

/-! ## Helper lemmas -/

theorem vlt_iff_LexLt (a b : V4) : vlt a b = true ↔ LexLt a b := by
  simp [vlt, LexLt]

theorem vgt_iff_LexLt (a b : V4) : vgt a b = true ↔ LexLt b a := by
  simp [vgt, vlt_iff_LexLt]

theorem pyInt_zero_lit : pyInt ['0'] = some 0 := by decide

theorem parseParts_pad_two (p₁ p₂ : List Char) (w x : Int)
    (h₁ : pyInt p₁ = some w) (h₂ : pyInt p₂ = some x) :
    parseParts [p₁, p₂] = some ⟨w, x, 0, 0⟩ := by
  simp [parseParts, h₁, h₂, pyInt_zero_lit]

theorem parseParts_truncate (p₁ p₂ p₃ p₄ : List Char) (rest : List (List Char))
    (w x y z : Int) (h₁ : pyInt p₁ = some w) (h₂ : pyInt p₂ = some x)
    (h₃ : pyInt p₃ = some y) (h₄ : pyInt p₄ = some z) :
    parseParts (p₁ :: p₂ :: p₃ :: p₄ :: rest) = some ⟨w, x, y, z⟩ := by
  have hlen : 4 - (p₁ :: p₂ :: p₃ :: p₄ :: rest).length = 0 := by
    simp [List.length_cons]
  simp [parseParts, hlen, h₁, h₂, h₃, h₄, List.take_succ_cons]

theorem check_eq_decideWithLatest (db : List Release) (req : UpdateCheckRequest) (now : Nat)
    (latest : Release) (hl : getLatestActive db = some latest) :
    check_for_updates db req now = decideWithLatest latest req := by
  unfold check_for_updates
  rw [hl]

theorem pickLatest_mem (best : Release) (l : List Release) :
    pickLatest best l = best ∨ pickLatest best l ∈ l := by
  induction l generalizing best with
  | nil => exact Or.inl rfl
  | cons r rest ih =>
    rcases ih (if best.release_date < r.release_date then r else best) with h | h
    · by_cases hd : best.release_date < r.release_date
      · right
        simp only [pickLatest, if_pos hd] at h ⊢
        rw [h]
        exact List.mem_cons_self r rest
      · left
        simp only [pickLatest, if_neg hd] at h ⊢
        exact h
    · right
      simp only [pickLatest]
      exact List.mem_cons_of_mem r h

theorem pickLatest_maximal (best : Release) (l : List Release) :
    best.release_date ≤ (pickLatest best l).release_date ∧
    ∀ r ∈ l, r.release_date ≤ (pickLatest best l).release_date := by
  induction l generalizing best with
  | nil => exact ⟨Nat.le_refl _, by simp⟩
  | cons r rest ih =>
    obtain ⟨h1, h2⟩ := ih (if best.release_date < r.release_date then r else best)
    by_cases hd : best.release_date < r.release_date
    · simp only [if_pos hd] at h1 h2
      refine ⟨?_, ?_⟩
      · simp only [pickLatest, if_pos hd]
        exact Nat.le_trans (Nat.le_of_lt hd) h1
      · intro r' hr'
        simp only [pickLatest, if_pos hd]
        rcases List.mem_cons.mp hr' with h | h
        · subst h; exact h1
        · exact h2 r' h
    · simp only [if_neg hd] at h1 h2
      refine ⟨?_, ?_⟩
      · simp only [pickLatest, if_neg hd]
        exact h1
      · intro r' hr'
        simp only [pickLatest, if_neg hd]
        rcases List.mem_cons.mp hr' with h | h
        · subst h; exact Nat.le_trans (Nat.le_of_not_lt hd) h1
        · exact h2 r' h

theorem getLatestActive_spec (db : List Release) (r : Release)
    (h : getLatestActive db = some r) :
    r ∈ db ∧ r.is_active = true ∧
    ∀ r' ∈ db, r'.is_active = true → r'.release_date ≤ r.release_date := by
  unfold getLatestActive at h
  cases hf : db.filter (fun r => r.is_active) with
  | nil => rw [hf] at h; cases h
  | cons a rest =>
    rw [hf] at h
    simp only [Option.some.injEq] at h
    subst h
    have hmem : pickLatest a rest ∈ db.filter (fun r => r.is_active) := by
      rw [hf]
      rcases pickLatest_mem a rest with h | h
      · rw [h]; exact List.mem_cons_self a rest
      · exact List.mem_cons_of_mem a h
    have hmem' := List.mem_filter.mp hmem
    refine ⟨hmem'.1, by simpa using hmem'.2, ?_⟩
    intro r' hr' hact
    have : r' ∈ db.filter (fun r => r.is_active) :=
      List.mem_filter.mpr ⟨hr', by simpa using hact⟩
    rw [hf] at this
    obtain ⟨h1, h2⟩ := pickLatest_maximal a rest
    rcases List.mem_cons.mp this with h | h
    · subst h; exact h1
    · exact h2 r' h

theorem decideWithLatest_force_irrelevant (r₁ r₂ : Release)
    (req : UpdateCheckRequest) (h : sameExceptForce r₁ r₂) :
    decideWithLatest r₁ req = decideWithLatest r₂ req := by
  obtain ⟨v₁, d₁, n₁, u₁, s₁, c₁, t₁, f₁, m₁, a₁⟩ := r₁
  obtain ⟨v₂, d₂, n₂, u₂, s₂, c₂, t₂, f₂, m₂, a₂⟩ := r₂
  obtain ⟨hv, hd, hn, hu, hs, hc, ht, hm, ha⟩ := h
  simp only at hv hd hn hu hs hc ht hm ha
  subst hv hd hn hu hs hc ht hm ha
  rfl

theorem filter_active_rel (l₁ l₂ : List Release)
    (h : List.Forall₂ sameExceptForce l₁ l₂) :
    List.Forall₂ sameExceptForce
      (l₁.filter fun r => r.is_active) (l₂.filter fun r => r.is_active) := by
  induction h with
  | nil => exact List.Forall₂.nil
  | cons hab hrest ih =>
    rename_i a b l₁' l₂'
    have hact : a.is_active = b.is_active := hab.2.2.2.2.2.2.2.2
    cases hb : b.is_active with
    | false =>
      simp only [List.filter, hact, hb]
      exact ih
    | true =>
      simp only [List.filter, hact, hb]
      exact List.Forall₂.cons hab ih

theorem pickLatest_rel (b₁ b₂ : Release) (l₁ l₂ : List Release)
    (hb : sameExceptForce b₁ b₂) (h : List.Forall₂ sameExceptForce l₁ l₂) :
    sameExceptForce (pickLatest b₁ l₁) (pickLatest b₂ l₂) := by
  induction h generalizing b₁ b₂ with
  | nil => exact hb
  | cons hab hrest ih =>
    rename_i a b l₁' l₂'
    simp only [pickLatest]
    have hd : b₁.release_date = b₂.release_date := hb.2.1
    have hd' : a.release_date = b.release_date := hab.2.1
    rw [hd, hd']
    by_cases hlt : b₂.release_date < b.release_date
    · simp only [if_pos hlt]
      exact ih a b hab
    · simp only [if_neg hlt]
      exact ih b₁ b₂ hb

theorem getLatestActive_rel (l₁ l₂ : List Release)
    (h : List.Forall₂ sameExceptForce l₁ l₂) :
    (getLatestActive l₁ = none ∧ getLatestActive l₂ = none) ∨
    ∃ r₁ r₂, getLatestActive l₁ = some r₁ ∧ getLatestActive l₂ = some r₂ ∧
      sameExceptForce r₁ r₂ := by
  have hf := filter_active_rel l₁ l₂ h
  unfold getLatestActive
  generalize e₁ : l₁.filter (fun r => r.is_active) = f₁ at hf ⊢
  generalize e₂ : l₂.filter (fun r => r.is_active) = f₂ at hf ⊢
  cases hf with
  | nil => exact Or.inl ⟨rfl, rfl⟩
  | cons hab hrest =>
    rename_i a b l₁' l₂'
    exact Or.inr ⟨_, _, rfl, rfl, pickLatest_rel a b l₁' l₂' hab hrest⟩

theorem round2_zero : round2 0 = 0 := by
  norm_num [round2, roundHalfEven]

/-! ## Claim theorems -/

/-- C4: `parse_version` strips the leading `v`/`V` marker, splits on
`'.'`, fills missing trailing components with `0` up to exactly four,
truncates extra components, and parses each component as an integer; in
particular `parse_version "1.2" = (1,2,0,0)`,
`parse_version "v2.0.1.5" = (2,0,1,5)` and
`parse_version "3.1.0.0" = (3,1,0,0)`. -/
theorem parse_version_contract :
    parse_version "1.2" = some ⟨1, 2, 0, 0⟩ ∧
    parse_version "v2.0.1.5" = some ⟨2, 0, 1, 5⟩ ∧
    parse_version "3.1.0.0" = some ⟨3, 1, 0, 0⟩ ∧
    (∀ s : String, parse_version s =
      parseParts (splitDot ((pyStrip s.data).dropWhile fun c => c == 'v' || c == 'V'))) ∧
    (∀ p₁ p₂ w x, pyInt p₁ = some w → pyInt p₂ = some x →
      parseParts [p₁, p₂] = some ⟨w, x, 0, 0⟩) ∧
    (∀ p₁ p₂ p₃ p₄ rest w x y z, pyInt p₁ = some w → pyInt p₂ = some x →
      pyInt p₃ = some y → pyInt p₄ = some z →
      parseParts (p₁ :: p₂ :: p₃ :: p₄ :: rest) = some ⟨w, x, y, z⟩) :=
  ⟨by decide, by decide, by decide, fun _ => rfl, parseParts_pad_two, parseParts_truncate⟩

/-- C4 witness: the padding clause applied at the concrete parts
`["7", "8"]`. -/
theorem parse_version_contract_witness :
    pyInt ['7'] = some 7 ∧ pyInt ['8'] = some 8 ∧
    parseParts [['7'], ['8']] = some ⟨7, 8, 0, 0⟩ :=
  ⟨by decide, by decide,
    parse_version_contract.2.2.2.2.1 ['7'] ['8'] 7 8 (by decide) (by decide)⟩

/-- C1: when a latest active release exists and all three version
strings parse, the check decision sets `updateAvailable` exactly when
the parsed 4-tuple of the latest release is strictly greater than the
parsed current version of the client, and sets `forceUpdate` exactly
when the parsed current version is strictly below the parsed
`min_required_version` of the release, under strict lexicographic
quadruple order. -/
theorem check_decision_ordering (db : List Release) (req : UpdateCheckRequest) (now : Nat)
    (latest : Release) (cur lv mr : V4)
    (hl : getLatestActive db = some latest)
    (hc : parse_version req.currentVersion = some cur)
    (hv : parse_version latest.version = some lv)
    (hm : parse_version latest.min_required_version = some mr)
    (resp : UpdateCheckResponse) (evs : List UpdateStatistic)
    (hr : check_for_updates db req now = .ok (resp, evs)) :
    (resp.updateAvailable = true ↔ LexLt cur lv) ∧
    (resp.forceUpdate = true ↔ LexLt cur mr) := by
  rw [check_eq_decideWithLatest db req now latest hl] at hr
  unfold decideWithLatest at hr
  simp only [hc, hv, hm, Except.ok.injEq, Prod.mk.injEq] at hr
  obtain ⟨h1, -⟩ := hr
  subst h1
  exact ⟨vgt_iff_LexLt lv cur, vlt_iff_LexLt cur mr⟩

/-- C1 witness: Scenario B, latest `2.0.0.0`, minimum `1.0.0.0`, client
`1.5.0.0`. -/
theorem check_decision_ordering_witness :
    (respB.updateAvailable = true ↔ LexLt ⟨1, 5, 0, 0⟩ ⟨2, 0, 0, 0⟩) ∧
    (respB.forceUpdate = true ↔ LexLt ⟨1, 5, 0, 0⟩ ⟨1, 0, 0, 0⟩) :=
  check_decision_ordering [relB] reqB 0 relB ⟨1, 5, 0, 0⟩ ⟨2, 0, 0, 0⟩ ⟨1, 0, 0, 0⟩
    (by decide) (by decide) (by decide) (by decide) respB [statB] rfl

/-- C2: the code does not surface a malformed version string as a 4xx
client error.  At the concrete failing input (current version `"abc"`
against an active release) `parse_version` fails and the endpoint
returns HTTP 500 through its blanket exception handler, contradicting
the required client-error classification. -/
theorem nonnumeric_version_yields_500 :
    parse_version reqBad.currentVersion = none ∧
    ∃ e : HTTPError, check_for_updates [relB] reqBad 0 = .error e ∧
      e.status_code = 500 ∧ ¬(400 ≤ e.status_code ∧ e.status_code < 500) :=
  ⟨by decide, _, rfl, rfl, by decide⟩

/-- C3 counterexample: two check calls against the same (empty) registry
with the same request yield different payloads when made at different
times, because the no-release branch stamps `releaseDate` with
`datetime.utcnow()`. -/
theorem check_not_time_independent :
    check_for_updates [] reqB 0 ≠ check_for_updates [] reqB 1 := by decide

/-- C3 (amended): the decision payload is a deterministic function of
the registry state and the request up to the `releaseDate` field, which
in the no-active-release branch carries the current server time; when an
active latest release exists the whole payload, `releaseDate` included,
is independent of the call time. -/
theorem check_deterministic (db : List Release) (req : UpdateCheckRequest) (now₁ now₂ : Nat) :
    ((check_for_updates db req now₁).map fun p => ({ p.1 with releaseDate := 0 }, p.2)) =
      ((check_for_updates db req now₂).map fun p => ({ p.1 with releaseDate := 0 }, p.2)) ∧
    (∀ r, getLatestActive db = some r →
      check_for_updates db req now₁ = check_for_updates db req now₂) := by
  cases h : getLatestActive db with
  | none =>
    constructor
    · unfold check_for_updates
      rw [h]
      rfl
    · intro r hr
      cases hr
  | some latest =>
    constructor
    · rw [check_eq_decideWithLatest db req now₁ latest h,
        check_eq_decideWithLatest db req now₂ latest h]
    · intro r hr
      rw [check_eq_decideWithLatest db req now₁ latest h,
        check_eq_decideWithLatest db req now₂ latest h]

/-- C3 witness: with an active release present, calls at times 3 and 9
coincide. -/
theorem check_deterministic_witness :
    check_for_updates [relB] reqB 3 = check_for_updates [relB] reqB 9 :=
  (check_deterministic [relB] reqB 3 9).2 relB (by decide)

/-- C5: when no active release exists, the check succeeds with
`updateAvailable = false`, echoes the current version of the client
itself as the latest version, and carries the localized no-release
notification (`Chưa có bản phát hành nào`, "no release published
yet"). -/
theorem no_release_decision (db : List Release) (req : UpdateCheckRequest) (now : Nat)
    (h : getLatestActive db = none) :
    ∃ resp evs, check_for_updates db req now = .ok (resp, evs) ∧
      resp.updateAvailable = false ∧ resp.latestVersion = req.currentVersion ∧
      resp.notificationMessage = noReleaseMsg := by
  unfold check_for_updates
  rw [h]
  exact ⟨_, _, rfl, rfl, rfl, rfl⟩

/-- C5 witness: a registry holding only a deactivated release. -/
theorem no_release_decision_witness :
    ∃ resp evs,
      check_for_updates [{ relB with is_active := false }] reqB 7 = .ok (resp, evs) ∧
      resp.updateAvailable = false ∧ resp.latestVersion = reqB.currentVersion ∧
      resp.notificationMessage = noReleaseMsg :=
  no_release_decision [{ relB with is_active := false }] reqB 7 (by decide)

/-- C6: against an active latest release, `forceUpdate = true` forces
the effective update type to `mandatory` and the mandatory-update
warning text; otherwise the stored classification is used verbatim and
the notification falls through `updateAvailable` → new-version text,
else up-to-date text. -/
theorem effective_type_and_notification (db : List Release) (req : UpdateCheckRequest)
    (now : Nat) (latest : Release) (resp : UpdateCheckResponse) (evs : List UpdateStatistic)
    (hl : getLatestActive db = some latest)
    (hr : check_for_updates db req now = .ok (resp, evs)) :
    (resp.forceUpdate = true →
      resp.updateType = "mandatory" ∧ resp.notificationMessage = forceMsg) ∧
    (resp.forceUpdate = false → resp.updateType = latest.update_type) ∧
    (resp.forceUpdate = false → resp.updateAvailable = true →
      resp.notificationMessage = newVersionMsg) ∧
    (resp.forceUpdate = false → resp.updateAvailable = false →
      resp.notificationMessage = upToDateMsg) := by
  rw [check_eq_decideWithLatest db req now latest hl] at hr
  unfold decideWithLatest at hr
  cases hc : parse_version req.currentVersion with
  | none => simp only [hc] at hr; cases hr
  | some cur =>
    cases hv : parse_version latest.version with
    | none => simp only [hc, hv] at hr; cases hr
    | some lv =>
      cases hm : parse_version latest.min_required_version with
      | none => simp only [hc, hv, hm] at hr; cases hr
      | some mr =>
        simp only [hc, hv, hm, Except.ok.injEq, Prod.mk.injEq] at hr
        obtain ⟨h1, -⟩ := hr
        subst h1
        cases hf : vlt cur mr <;> cases ha : vgt lv cur <;>
          simp [hf, ha]

/-- C6 witness: Scenario B, where `forceUpdate` is false, the stored
type `optional` is kept, and the new-version notification is chosen. -/
theorem effective_type_and_notification_witness :
    (respB.forceUpdate = true →
      respB.updateType = "mandatory" ∧ respB.notificationMessage = forceMsg) ∧
    (respB.forceUpdate = false → respB.updateType = relB.update_type) ∧
    (respB.forceUpdate = false → respB.updateAvailable = true →
      respB.notificationMessage = newVersionMsg) ∧
    (respB.forceUpdate = false → respB.updateAvailable = false →
      respB.notificationMessage = upToDateMsg) :=
  effective_type_and_notification [relB] reqB 0 relB respB [statB] (by decide) rfl

/-- C7: the release the decision engine compares against is an active
member of the registry whose release timestamp is maximal among active
releases, and its `version` and `min_required_version` are the ones the
response reports — irrespective of semantically higher versions stored
elsewhere. -/
theorem latest_by_timestamp (db : List Release) (req : UpdateCheckRequest) (now : Nat)
    (r : Release) (h : getLatestActive db = some r) :
    r ∈ db ∧ r.is_active = true ∧
    (∀ r' ∈ db, r'.is_active = true → r'.release_date ≤ r.release_date) ∧
    ∀ resp evs, check_for_updates db req now = .ok (resp, evs) →
      resp.latestVersion = r.version ∧
      resp.minimumRequiredVersion = r.min_required_version := by
  obtain ⟨h1, h2, h3⟩ := getLatestActive_spec db r h
  refine ⟨h1, h2, h3, ?_⟩
  intro resp evs hr
  rw [check_eq_decideWithLatest db req now r h] at hr
  unfold decideWithLatest at hr
  cases hc : parse_version req.currentVersion with
  | none => simp only [hc] at hr; cases hr
  | some cur =>
    cases hv : parse_version r.version with
    | none => simp only [hc, hv] at hr; cases hr
    | some lv =>
      cases hm : parse_version r.min_required_version with
      | none => simp only [hc, hv, hm] at hr; cases hr
      | some mr =>
        simp only [hc, hv, hm, Except.ok.injEq, Prod.mk.injEq] at hr
        obtain ⟨h4, -⟩ := hr
        subst h4
        exact ⟨rfl, rfl⟩

/-- C7 witness: with active releases `9.0.0.0` (timestamp 50) and
`2.0.0.0` (timestamp 100), the engine compares against the
newer-by-timestamp `2.0.0.0`, not the semantically higher `9.0.0.0`. -/
theorem latest_by_timestamp_witness :
    relB ∈ [relOld, relB] ∧ relB.is_active = true ∧
    (∀ r' ∈ [relOld, relB], r'.is_active = true →
      r'.release_date ≤ relB.release_date) ∧
    ∀ resp evs, check_for_updates [relOld, relB] reqB 0 = .ok (resp, evs) →
      resp.latestVersion = relB.version ∧
      resp.minimumRequiredVersion = relB.min_required_version :=
  latest_by_timestamp [relOld, relB] reqB 0 relB (by decide)

/-- C8 counterexample: one failed install makes `totalInstalls = 1 ≠ 0`
while `successRatePercent` is still `0`, so the rate is not `0` exactly
when `totalInstalls = 0`. -/
theorem success_rate_zero_not_iff :
    (get_update_statistics [evInstallFailed]).total_installs ≠ 0 ∧
    (get_update_statistics [evInstallFailed]).success_rate = 0 := by
  constructor
  · decide
  · have h : (List.filter (fun s => s.action == "install" && s.status == "success")
        [evInstallFailed]).length = 0 := by decide
    simp [get_update_statistics, h, round2_zero]

/-- C8 (amended): `successRatePercent` is `0` when `totalInstalls = 0`
(the quotient is guarded and never taken with a zero denominator), and
otherwise equals `round(100 * successfulInstalls / totalInstalls, 2)`;
the rate may also be `0` with installs present, when none succeeded. -/
theorem success_rate_formula (log : List UpdateStatistic) :
    ((get_update_statistics log).total_installs = 0 →
      (get_update_statistics log).success_rate = 0) ∧
    (0 < (get_update_statistics log).total_installs →
      (get_update_statistics log).success_rate =
        round2 (100 * ((get_update_statistics log).success_installs : ℚ) /
          ((get_update_statistics log).total_installs : ℚ))) := by
  constructor
  · intro h
    simp only [get_update_statistics] at h ⊢
    rw [if_neg (by omega)]
  · intro h
    simp only [get_update_statistics] at h ⊢
    rw [if_pos h]

/-- C8 witness: a log with one successful install. -/
theorem success_rate_formula_witness :
    0 < (get_update_statistics [evInstallOk]).total_installs ∧
    (get_update_statistics [evInstallOk]).success_rate =
      round2 (100 * ((get_update_statistics [evInstallOk]).success_installs : ℚ) /
        ((get_update_statistics [evInstallOk]).total_installs : ℚ)) :=
  ⟨by decide, (success_rate_formula [evInstallOk]).2 (by decide)⟩

/-- C9: two registry states that differ only in stored `force_update`
flags produce identical check responses for every request — the decision
never reads the stored flag. -/
theorem force_flag_noninterference (db₁ db₂ : List Release)
    (req : UpdateCheckRequest) (now : Nat)
    (h : List.Forall₂ sameExceptForce db₁ db₂) :
    check_for_updates db₁ req now = check_for_updates db₂ req now := by
  rcases getLatestActive_rel db₁ db₂ h with ⟨h₁, h₂⟩ | ⟨r₁, r₂, h₁, h₂, hr⟩
  · unfold check_for_updates
    rw [h₁, h₂]
  · rw [check_eq_decideWithLatest db₁ req now r₁ h₁,
      check_eq_decideWithLatest db₂ req now r₂ h₂]
    exact decideWithLatest_force_irrelevant r₁ r₂ req hr

/-- C9 witness: flipping the stored `force_update` flag of the latest
active release leaves the response unchanged. -/
theorem force_flag_noninterference_witness :
    check_for_updates [relB] reqB 0 =
      check_for_updates [{ relB with force_update := true }] reqB 0 :=
  force_flag_noninterference [relB] [{ relB with force_update := true }] reqB 0
    (List.Forall₂.cons (by constructor <;> simp [relB]) List.Forall₂.nil)

/-- C10: the no-active-release branch appends no statistics row, and
whenever a check against an active latest release succeeds it appends
exactly one `action="check"` row. -/
theorem check_stats_frame (db : List Release) (req : UpdateCheckRequest) (now : Nat) :
    (getLatestActive db = none →
      ∃ resp, check_for_updates db req now = .ok (resp, [])) ∧
    ∀ r, getLatestActive db = some r →
      ∀ resp evs, check_for_updates db req now = .ok (resp, evs) →
        ∃ stat, evs = [stat] ∧ stat.action = "check" ∧ stat.status = "success" ∧
          stat.machine_hash = req.machineHash ∧
          stat.current_version = some req.currentVersion := by
  constructor
  · intro h
    unfold check_for_updates
    rw [h]
    exact ⟨_, rfl⟩
  · intro r h resp evs hr
    rw [check_eq_decideWithLatest db req now r h] at hr
    unfold decideWithLatest at hr
    cases hc : parse_version req.currentVersion with
    | none => simp only [hc] at hr; cases hr
    | some cur =>
      cases hv : parse_version r.version with
      | none => simp only [hc, hv] at hr; cases hr
      | some lv =>
        cases hm : parse_version r.min_required_version with
        | none => simp only [hc, hv, hm] at hr; cases hr
        | some mr =>
          simp only [hc, hv, hm, Except.ok.injEq, Prod.mk.injEq] at hr
          obtain ⟨-, h2⟩ := hr
          subst h2
          exact ⟨_, rfl, rfl, rfl, rfl, rfl⟩

/-- C10 witness: the Scenario B check appends exactly the one check
row. -/
theorem check_stats_frame_witness :
    ∃ stat, [statB] = [stat] ∧ stat.action = "check" ∧ stat.status = "success" ∧
      stat.machine_hash = reqB.machineHash ∧
      stat.current_version = some reqB.currentVersion :=
  (check_stats_frame [relB] reqB 0).2 relB (by decide) respB [statB] rfl

end Updates
